import Mathlib

set_option autoImplicit false

namespace Todolist

/-! ## Data model

Shallow embedding of the todolist repository's core and storage layers.
`TodoItem` is the domain entity of the business core (`core` package,
`TheCore` version with `ID` field); `TodoItemModel` is the storage-layer
record persisted by `DatabaseAccessor` (`storage/database.go`, GORM v2
version). Go `int` is embedded as `Int`; Go's zero values are `0`, `""`,
`false`. -/

structure TodoItem where
  ID : Int
  Description : String
  Completed : Bool
deriving Repr, DecidableEq, Inhabited

structure TodoItemModel where
  ID : Int
  Description : String
  Completed : Bool
deriving Repr, DecidableEq, Inhabited

/-- Decoding a stored record to a domain item, as done inline in
`DatabaseAccessor.Read`: `core.TodoItem{ID: m.ID, Description: m.Description,
Completed: m.Completed}`. -/
def TodoItemModel.toItem (m : TodoItemModel) : TodoItem :=
  { ID := m.ID, Description := m.Description, Completed := m.Completed }

/-! ## Storage accessor interface

The Go interface `StorageAccessor` (core package). The accessor is stateful;
we embed its state explicitly as a type parameter `σ` and its error type as
`ε` (Go `error`). `Create` receives a pointer to the caller's item and may
mutate it (it writes the assigned id back), so its embedding returns the
possibly-mutated item alongside the returned id and error. -/

structure StorageAccessor (σ ε : Type) where
  Create : σ → TodoItem → σ × TodoItem × Int × Option ε
  Read : σ → (TodoItem → Bool) → List TodoItem
  Update : σ → TodoItem → σ × Option ε
  Delete : σ → Int → σ × Option ε

/-- Domain-level errors surfaced by the business core: the
`TodoItemNotFoundError{ID: id}` value it constructs itself, or an error
value passed through unchanged from the storage accessor. -/
inductive CoreError (ε : Type) where
  | todoItemNotFound (ID : Int)
  | accessor (e : ε)
deriving Repr, DecidableEq

/-- Result of a business-core operation: `fatal` embeds Go's `log.Fatal`
(process abort, no return value), `ok` a normal return. -/
inductive CoreResult (α : Type) where
  | fatal
  | ok (val : α)
deriving Repr, DecidableEq

namespace TheCore

/-- Go's zero value `TodoItem{}`, returned alongside every error. -/
def emptyTodoItem : TodoItem :=
  { ID := 0, Description := "", Completed := false }

variable {σ ε : Type}

/-- Embedding of `TheCore.CreateItem`: builds
`TodoItem{Description: description, Completed: false}`, calls
`accessor.Create(&todo)` discarding the returned id, aborts on accessor
error, otherwise returns the (mutated) item. -/
def CreateItem (A : StorageAccessor σ ε) (s : σ) (description : String) :
    CoreResult (σ × TodoItem) :=
  let todo : TodoItem := { ID := 0, Description := description, Completed := false }
  match A.Create s todo with
  | (s2, todo2, _, none) => CoreResult.ok (s2, todo2)
  | (_, _, _, some _) => CoreResult.fatal

/-- Embedding of `TheCore.UpdateItem`: reads with predicate `todo.ID == id`;
zero matches return `(TodoItem{}, TodoItemNotFoundError{id})`; more than one
match is `log.Fatal`; exactly one match sets `Completed` and calls
`accessor.Update`, returning `(TodoItem{}, err)` on accessor error and the
updated item otherwise. -/
def UpdateItem (A : StorageAccessor σ ε) (s : σ) (id : Int) (completed : Bool) :
    CoreResult (σ × TodoItem × Option (CoreError ε)) :=
  match A.Read s (fun todo => todo.ID == id) with
  | [] => CoreResult.ok (s, emptyTodoItem, some (CoreError.todoItemNotFound id))
  | [t] =>
    match A.Update s { t with Completed := completed } with
    | (s2, some e) => CoreResult.ok (s2, emptyTodoItem, some (CoreError.accessor e))
    | (s2, none) => CoreResult.ok (s2, { t with Completed := completed }, none)
  | _ => CoreResult.fatal

/-- Embedding of `TheCore.DeleteItem`: delegates to `accessor.Delete(id)`
and passes the error (or nil) through unchanged. -/
def DeleteItem (A : StorageAccessor σ ε) (s : σ) (id : Int) : σ × Option ε :=
  A.Delete s id

/-- Embedding of `TheCore.GetItems`: reads with predicate
`todo.Completed == completed`. -/
def GetItems (A : StorageAccessor σ ε) (s : σ) (completed : Bool) : List TodoItem :=
  A.Read s (fun todo => todo.Completed == completed)

end TheCore

/-! ## Database accessor

The concrete `DatabaseAccessor` of `storage/database.go` persists
`TodoItemModel` rows in a MySQL table via GORM, with `ID` an auto-increment
primary key. The backing table is embedded as a list of rows in scan order
plus the auto-increment counter (MySQL assigns `autoInc` to the next insert
and never reuses counter values within a run). The GORM primitives the
accessor calls are embedded by their documented semantics on that state. -/

structure DB where
  rows : List TodoItemModel
  autoInc : Int
deriving Repr, DecidableEq

/-- Storage-layer error: GORM's `ErrRecordNotFound`, produced by `First`
when no row matches. -/
inductive StorageError where
  | recordNotFound
deriving Repr, DecidableEq

/-- GORM `db.Create(&m)`: inserts a new row, the primary key assigned by
auto-increment (the inserted struct's ID field is the zero value). -/
def gormCreate (db : DB) (m : TodoItemModel) : DB :=
  { rows := db.rows ++ [{ m with ID := db.autoInc }], autoInc := db.autoInc + 1 }

/-- Row with the greatest primary key, zero-valued struct if the table is
empty (GORM `Last` orders by primary key descending; on no rows it leaves
the destination struct zero-valued, and the caller ignores the error). -/
def lastByPk (rows : List TodoItemModel) : TodoItemModel :=
  rows.foldl (fun best r => if best.ID ≤ r.ID then r else best)
    { ID := 0, Description := "", Completed := false }

/-- GORM `db.Last(&m)` on the embedded table. -/
def gormLast (db : DB) : TodoItemModel :=
  lastByPk db.rows

/-- GORM `db.First(&m, id)`: first row whose primary key equals `id`, or
`ErrRecordNotFound`. -/
def gormFirst (db : DB) (id : Int) : Option TodoItemModel :=
  db.rows.find? (fun r => r.ID == id)

/-- GORM `db.Save(&m)` with a non-zero primary key: UPDATE of every row
whose primary key equals `m.ID`. -/
def gormSave (db : DB) (m : TodoItemModel) : DB :=
  { db with rows := db.rows.map (fun r => if r.ID == m.ID then m else r) }

/-- GORM `db.Delete(&m)`: DELETE of every row whose primary key equals
`m.ID`. -/
def gormDelete (db : DB) (m : TodoItemModel) : DB :=
  { db with rows := db.rows.filter (fun r => !(r.ID == m.ID)) }

namespace DatabaseAccessor

/-- Embedding of `DatabaseAccessor.Create`: inserts
`TodoItemModel{Description: todo.Description, Completed: false}`, then reads
the last row to obtain the assigned id, writes it into the caller's item,
and returns it with a nil error. An insert never fails in the embedded
store, so the `result.Error != nil` branch does not arise. -/
def Create (db : DB) (todo : TodoItem) : DB × TodoItem × Int × Option StorageError :=
  let db2 := gormCreate db
    { ID := 0, Description := todo.Description, Completed := false }
  let todoModel := gormLast db2
  (db2, { todo with ID := todoModel.ID }, todoModel.ID, none)

/-- Embedding of `DatabaseAccessor.Read`: fetches all rows, decodes each to
a `TodoItem`, and keeps those satisfying the predicate, in scan order. -/
def Read (db : DB) (p : TodoItem → Bool) : List TodoItem :=
  (db.rows.map TodoItemModel.toItem).filter p

/-- Embedding of `DatabaseAccessor.Update`: `First` by `todo.ID`; on miss
returns the record-not-found error; otherwise overwrites the found row's
`Description` and `Completed` fields from `todo` and saves it. -/
def Update (db : DB) (todo : TodoItem) : DB × Option StorageError :=
  match gormFirst db todo.ID with
  | none => (db, some StorageError.recordNotFound)
  | some todoModel =>
    (gormSave db { todoModel with Description := todo.Description, Completed := todo.Completed },
     none)

/-- Embedding of `DatabaseAccessor.Delete`: `First` by `id`; on miss returns
the record-not-found error; otherwise deletes the found row. -/
def Delete (db : DB) (id : Int) : DB × Option StorageError :=
  match gormFirst db id with
  | none => (db, some StorageError.recordNotFound)
  | some todoModel => (gormDelete db todoModel, none)

end DatabaseAccessor

/-- The `DatabaseAccessor` packaged as a `StorageAccessor`, as wired up at
program start (`core.SetAccessor(&storage.DatabaseAccessor{...})`). -/
def dbAccessor : StorageAccessor DB StorageError :=
  { Create := DatabaseAccessor.Create
    Read := DatabaseAccessor.Read
    Update := DatabaseAccessor.Update
    Delete := DatabaseAccessor.Delete }

/-! ## Store invariants -/

/-- Each id identifies at most one stored record (the spec's
one-record-per-id invariant). -/
def DB.UniqueIds (db : DB) : Prop :=
  (db.rows.map TodoItemModel.ID).Nodup

/-- Well-formedness of the embedded table: unique primary keys, each below
the auto-increment counter (MySQL never hands out a counter value twice
within a run), counter positive (MySQL auto-increment starts at 1). -/
def DB.WF (db : DB) : Prop :=
  (db.rows.map TodoItemModel.ID).Nodup ∧
  (∀ r ∈ db.rows, r.ID < db.autoInc) ∧
  0 < db.autoInc

instance (db : DB) : Decidable db.UniqueIds := by
  unfold DB.UniqueIds; infer_instance

instance (db : DB) : Decidable db.WF := by
  unfold DB.WF; infer_instance

/-! ## Helper lemmas about the embedded store -/

theorem toItem_ID (m : TodoItemModel) : m.toItem.ID = m.ID := rfl

theorem filter_map_id_nil (rows : List TodoItemModel) (i : Int)
    (h : ∀ m ∈ rows, m.ID ≠ i) :
    (rows.map TodoItemModel.toItem).filter (fun t => t.ID == i) = [] := by
  rw [List.filter_eq_nil_iff]
  intro t ht
  rcases List.mem_map.mp ht with ⟨m, hm, rfl⟩
  simpa [TodoItemModel.toItem] using h m hm

theorem filter_map_id_single (rows : List TodoItemModel)
    (hu : (rows.map TodoItemModel.ID).Nodup) (r : TodoItemModel) (hr : r ∈ rows) :
    (rows.map TodoItemModel.toItem).filter (fun t => t.ID == r.ID) = [r.toItem] := by
  induction rows with
  | nil => cases hr
  | cons m rest ih =>
    rw [List.map_cons, List.nodup_cons] at hu
    rw [List.map_cons, List.filter_cons]
    rcases List.mem_cons.mp hr with rfl | hmem
    · have hhead : (r.toItem.ID == r.ID) = true := by
        simp [TodoItemModel.toItem]
      rw [hhead]
      have : (rest.map TodoItemModel.toItem).filter (fun t => t.ID == r.ID) = [] := by
        refine filter_map_id_nil rest r.ID (fun x hx heq => hu.1 ?_)
        rw [← heq]
        exact List.mem_map_of_mem TodoItemModel.ID hx
      simpa using this
    · have hne : m.ID ≠ r.ID := fun hEq => hu.1 (hEq ▸ List.mem_map_of_mem TodoItemModel.ID hmem)
      have hhead : (m.toItem.ID == r.ID) = false := by
        simp [TodoItemModel.toItem, hne]
      rw [hhead]
      simpa using ih hu.2 hmem

theorem find_id_none (rows : List TodoItemModel) (i : Int)
    (h : ∀ m ∈ rows, m.ID ≠ i) :
    rows.find? (fun s => s.ID == i) = none := by
  rw [List.find?_eq_none]
  intro m hm
  simpa using h m hm

theorem find_id_some (rows : List TodoItemModel)
    (hu : (rows.map TodoItemModel.ID).Nodup) (r : TodoItemModel) (hr : r ∈ rows) :
    rows.find? (fun s => s.ID == r.ID) = some r := by
  induction rows with
  | nil => cases hr
  | cons m rest ih =>
    rw [List.map_cons, List.nodup_cons] at hu
    rcases List.mem_cons.mp hr with rfl | hmem
    · exact List.find?_cons_of_pos _ (beq_self_eq_true r.ID)
    · have hne : m.ID ≠ r.ID := fun hEq => hu.1 (hEq ▸ List.mem_map_of_mem TodoItemModel.ID hmem)
      rw [List.find?_cons_of_neg _ (by simp [hne])]
      exact ih hu.2 hmem

theorem Read_id_nil (db : DB) (i : Int) (h : ∀ m ∈ db.rows, m.ID ≠ i) :
    DatabaseAccessor.Read db (fun t => t.ID == i) = [] :=
  filter_map_id_nil db.rows i h

theorem Read_id_single (db : DB) (hu : db.UniqueIds) (r : TodoItemModel)
    (hr : r ∈ db.rows) :
    DatabaseAccessor.Read db (fun t => t.ID == r.ID) = [r.toItem] :=
  filter_map_id_single db.rows hu r hr

theorem foldl_best_ID_le (rows : List TodoItemModel) (b : Int) (init : TodoItemModel)
    (hinit : init.ID ≤ b) (h : ∀ r ∈ rows, r.ID ≤ b) :
    (rows.foldl (fun best r => if best.ID ≤ r.ID then r else best) init).ID ≤ b := by
  induction rows generalizing init with
  | nil => exact hinit
  | cons x xs ih =>
    rw [List.foldl_cons]
    refine ih _ ?_ (fun r hr => h r (List.mem_cons_of_mem _ hr))
    by_cases hc : init.ID ≤ x.ID
    · rw [if_pos hc]; exact h x (List.mem_cons_self _ _)
    · rw [if_neg hc]; exact hinit

theorem lastByPk_append (rows : List TodoItemModel) (m : TodoItemModel)
    (hle : ∀ r ∈ rows, r.ID ≤ m.ID) (h0 : 0 ≤ m.ID) :
    lastByPk (rows ++ [m]) = m := by
  unfold lastByPk
  rw [List.foldl_append, List.foldl_cons, List.foldl_nil]
  rw [if_pos (foldl_best_ID_le rows m.ID _ h0 hle)]

/-- Reduction of `CreateItem` over the database accessor on a well-formed
store: the new row gets id `autoInc`, and the item written back carries it. -/
theorem CreateItem_db_eq (db : DB) (d : String) (h : db.WF) :
    TheCore.CreateItem dbAccessor db d =
      CoreResult.ok
        ({ rows := db.rows ++ [{ ID := db.autoInc, Description := d, Completed := false }],
           autoInc := db.autoInc + 1 },
         { ID := db.autoInc, Description := d, Completed := false }) := by
  have hlast : gormLast
      { rows := db.rows ++ [{ ID := db.autoInc, Description := d, Completed := false }],
        autoInc := db.autoInc + 1 } =
      { ID := db.autoInc, Description := d, Completed := false } := by
    unfold gormLast
    exact lastByPk_append db.rows _ (fun r hr => le_of_lt (h.2.1 r hr)) (le_of_lt h.2.2)
  unfold TheCore.CreateItem
  simp only [dbAccessor, DatabaseAccessor.Create, gormCreate, hlast]

/-- Reduction of `UpdateItem` over the database accessor when no row has the
requested id. -/
theorem UpdateItem_db_notFound (db : DB) (i : Int) (c : Bool)
    (h : ∀ m ∈ db.rows, m.ID ≠ i) :
    TheCore.UpdateItem dbAccessor db i c =
      CoreResult.ok (db, TheCore.emptyTodoItem, some (CoreError.todoItemNotFound i)) := by
  have hread : dbAccessor.Read db (fun todo => todo.ID == i) = [] := Read_id_nil db i h
  unfold TheCore.UpdateItem
  rw [hread]

/-- Reduction of `UpdateItem` over the database accessor when a unique row
has the requested id. -/
theorem UpdateItem_db_found (db : DB) (c : Bool) (r : TodoItemModel)
    (hu : db.UniqueIds) (hr : r ∈ db.rows) :
    TheCore.UpdateItem dbAccessor db r.ID c =
      CoreResult.ok
        ({ db with
            rows := db.rows.map (fun s => if s.ID == r.ID then { r with Completed := c } else s) },
         { ID := r.ID, Description := r.Description, Completed := c },
         none) := by
  have hread : dbAccessor.Read db (fun todo => todo.ID == r.ID) = [r.toItem] :=
    Read_id_single db hu r hr
  have hfind : db.rows.find? (fun s => s.ID == r.ID) = some r := find_id_some db.rows hu r hr
  unfold TheCore.UpdateItem
  rw [hread]
  simp only [dbAccessor, DatabaseAccessor.Update, gormFirst, gormSave, TodoItemModel.toItem,
    hfind]

/-- Reduction of `DeleteItem` over the database accessor when a row with the
requested id exists. -/
theorem DeleteItem_db_found (db : DB) (r : TodoItemModel)
    (hu : db.UniqueIds) (hr : r ∈ db.rows) :
    TheCore.DeleteItem dbAccessor db r.ID =
      ({ db with rows := db.rows.filter (fun s => !(s.ID == r.ID)) }, none) := by
  have hfind : db.rows.find? (fun s => s.ID == r.ID) = some r := find_id_some db.rows hu r hr
  unfold TheCore.DeleteItem
  simp only [dbAccessor, DatabaseAccessor.Delete, gormFirst, gormDelete, hfind]

/-- Reduction of `DeleteItem` over the database accessor when no row has the
requested id. -/
theorem DeleteItem_db_notFound (db : DB) (i : Int)
    (h : ∀ m ∈ db.rows, m.ID ≠ i) :
    TheCore.DeleteItem dbAccessor db i = (db, some StorageError.recordNotFound) := by
  have hfind : db.rows.find? (fun s => s.ID == i) = none := find_id_none db.rows i h
  unfold TheCore.DeleteItem
  simp only [dbAccessor, DatabaseAccessor.Delete, gormFirst, hfind]

/-- Unconditional shape of `CreateItem` over the database accessor: the
insert itself never fails, so no fatal branch is taken. -/
theorem CreateItem_db_shape (db : DB) (d : String) :
    TheCore.CreateItem dbAccessor db d =
      CoreResult.ok (gormCreate db { ID := 0, Description := d, Completed := false },
        { ID := (gormLast (gormCreate db { ID := 0, Description := d, Completed := false })).ID,
          Description := d, Completed := false }) := rfl

theorem Update_db_fst_autoInc (db : DB) (t : TodoItem) :
    ((DatabaseAccessor.Update db t).1).autoInc = db.autoInc := by
  unfold DatabaseAccessor.Update
  rcases h : gormFirst db t.ID with _ | m <;> simp [h, gormSave]

theorem Delete_db_fst_autoInc (db : DB) (i : Int) :
    ((DatabaseAccessor.Delete db i).1).autoInc = db.autoInc := by
  unfold DatabaseAccessor.Delete
  rcases h : gormFirst db i with _ | m <;> simp [h, gormDelete]

theorem UpdateItem_db_ok_autoInc (db : DB) (i : Int) (c : Bool) (db2 : DB)
    (t : TodoItem) (e : Option (CoreError StorageError))
    (h : TheCore.UpdateItem dbAccessor db i c = CoreResult.ok (db2, t, e)) :
    db2.autoInc = db.autoInc := by
  unfold TheCore.UpdateItem at h
  split at h
  · have h1 : db = db2 := congrArg (fun x => x.1) (CoreResult.ok.inj h)
    rw [← h1]
  · split at h
    · next p s2 e' heq =>
      have h1 : s2 = db2 := congrArg (fun x => x.1) (CoreResult.ok.inj h)
      have h2 : (dbAccessor.Update db _).1.autoInc = s2.autoInc :=
        congrArg (fun x => (x.1).autoInc) heq
      have h3 : s2.autoInc = db.autoInc := by
        rw [← h2]
        exact Update_db_fst_autoInc db _
      rw [← h1, h3]
    · next p s2 heq =>
      have h1 : s2 = db2 := congrArg (fun x => x.1) (CoreResult.ok.inj h)
      have h2 : (dbAccessor.Update db _).1.autoInc = s2.autoInc :=
        congrArg (fun x => (x.1).autoInc) heq
      have h3 : s2.autoInc = db.autoInc := by
        rw [← h2]
        exact Update_db_fst_autoInc db _
      rw [← h1, h3]
  · exact absurd h (by simp)

theorem map_ID_save (rows : List TodoItemModel) (i : Int) (m2 : TodoItemModel)
    (hid : m2.ID = i) :
    ((rows.map (fun s => if s.ID == i then m2 else s)).map TodoItemModel.ID)
      = rows.map TodoItemModel.ID := by
  rw [List.map_map]
  refine List.map_congr_left ?_
  intro s _
  by_cases hc : s.ID = i
  · simp [Function.comp, hc, hid]
  · simp [Function.comp, hc]

/-- Inserting a fresh row preserves well-formedness. -/
theorem WF_after_create (db : DB) (d : String) (h : db.WF) :
    DB.WF { rows := db.rows ++ [{ ID := db.autoInc, Description := d, Completed := false }],
            autoInc := db.autoInc + 1 } := by
  obtain ⟨hnd, hfresh, hpos⟩ := h
  refine ⟨?_, ?_, ?_⟩
  · rw [List.map_append, List.nodup_append]
    refine ⟨hnd, List.nodup_singleton _, ?_⟩
    intro a ha hb
    rcases List.mem_map.mp ha with ⟨r, hr, rfl⟩
    simp only [List.map_cons, List.map_nil, List.mem_singleton] at hb
    exact absurd hb (ne_of_lt (hfresh r hr))
  · intro r hrm
    rcases List.mem_append.mp hrm with hL | hR
    · exact lt_trans (hfresh r hL) (lt_add_one _)
    · rw [List.mem_singleton] at hR
      rw [hR]
      exact lt_add_one db.autoInc
  · show (0 : Int) < db.autoInc + 1
    omega

/-- Replacing the rows with given id by a row with that same id preserves
well-formedness. -/
theorem WF_after_save (db : DB) (i : Int) (m2 : TodoItemModel) (hid : m2.ID = i)
    (hlt : m2.ID < db.autoInc) (h : db.WF) :
    DB.WF { db with rows := db.rows.map (fun s => if s.ID == i then m2 else s) } := by
  obtain ⟨hnd, hfresh, hpos⟩ := h
  refine ⟨?_, ?_, hpos⟩
  · rw [map_ID_save db.rows i m2 hid]
    exact hnd
  · intro r hrm
    rcases List.mem_map.mp hrm with ⟨s, hs, rfl⟩
    by_cases hc : s.ID = i
    · rw [if_pos (by simp [hc])]
      exact hlt
    · rw [if_neg (by simp [hc])]
      exact hfresh s hs

/-- Removing rows preserves well-formedness. -/
theorem WF_after_filter (db : DB) (p : TodoItemModel → Bool) (h : db.WF) :
    DB.WF { db with rows := db.rows.filter p } := by
  obtain ⟨hnd, hfresh, hpos⟩ := h
  refine ⟨?_, ?_, hpos⟩
  · exact hnd.sublist ((db.rows.filter_sublist).map TodoItemModel.ID)
  · intro r hrm
    exact hfresh r (List.mem_of_mem_filter hrm)

/-! ## Operation traces -/

/-- One business-core call against the shared database accessor, as issued
by the endpoint layer. -/
inductive Op where
  | create (description : String)
  | update (id : Int) (completed : Bool)
  | delete (id : Int)
deriving Repr, DecidableEq

/-- Store state after one call (a fatal call aborts the process and changes
nothing further). -/
def applyOp (db : DB) : Op → DB
  | Op.create d =>
    match TheCore.CreateItem dbAccessor db d with
    | CoreResult.ok (db2, _) => db2
    | CoreResult.fatal => db
  | Op.update i c =>
    match TheCore.UpdateItem dbAccessor db i c with
    | CoreResult.ok (db2, _, _) => db2
    | CoreResult.fatal => db
  | Op.delete i => (TheCore.DeleteItem dbAccessor db i).1

/-- Ids of the items returned by the `CreateItem` calls of a trace, in call
order. -/
def createdIds (db : DB) : List Op → List Int
  | [] => []
  | op :: ops =>
    (match op with
     | Op.create d =>
       match TheCore.CreateItem dbAccessor db d with
       | CoreResult.ok (_, item) => [item.ID]
       | CoreResult.fatal => []
     | _ => []) ++ createdIds (applyOp db op) ops

theorem applyOp_update_eq (db : DB) (i : Int) (c : Bool) :
    applyOp db (Op.update i c) =
      (match TheCore.UpdateItem dbAccessor db i c with
       | CoreResult.ok (db2, _, _) => db2
       | CoreResult.fatal => db) := rfl

theorem applyOp_delete_eq (db : DB) (i : Int) :
    applyOp db (Op.delete i) = (TheCore.DeleteItem dbAccessor db i).1 := rfl

theorem applyOp_autoInc_le (db : DB) (op : Op) :
    db.autoInc ≤ (applyOp db op).autoInc := by
  cases op with
  | create d =>
    show db.autoInc ≤ db.autoInc + 1
    omega
  | update i c =>
    rw [applyOp_update_eq]
    rcases hres : TheCore.UpdateItem dbAccessor db i c with _ | ⟨db2, t, e⟩
    · exact le_refl _
    · exact le_of_eq (UpdateItem_db_ok_autoInc db i c db2 t e hres).symm
  | delete i =>
    rw [applyOp_delete_eq]
    exact le_of_eq (Delete_db_fst_autoInc db i).symm

theorem WF_applyOp (db : DB) (op : Op) (h : db.WF) : (applyOp db op).WF := by
  cases op with
  | create d =>
    exact WF_after_create db d h
  | update i c =>
    by_cases hex : ∃ r ∈ db.rows, r.ID = i
    · obtain ⟨r, hr, rfl⟩ := hex
      rw [applyOp_update_eq, UpdateItem_db_found db c r h.1 hr]
      exact WF_after_save db r.ID { r with Completed := c } rfl (h.2.1 r hr) h
    · push_neg at hex
      rw [applyOp_update_eq, UpdateItem_db_notFound db i c hex]
      exact h
  | delete i =>
    by_cases hex : ∃ r ∈ db.rows, r.ID = i
    · obtain ⟨r, hr, rfl⟩ := hex
      rw [applyOp_delete_eq, DeleteItem_db_found db r h.1 hr]
      exact WF_after_filter db _ h
    · push_neg at hex
      rw [applyOp_delete_eq, DeleteItem_db_notFound db i hex]
      exact h

theorem createdIds_cons_create (db : DB) (d : String) (ops : List Op) :
    createdIds db (Op.create d :: ops) =
      (match TheCore.CreateItem dbAccessor db d with
       | CoreResult.ok (_, item) => [item.ID]
       | CoreResult.fatal => []) ++ createdIds (applyOp db (Op.create d)) ops := rfl

theorem createdIds_cons_update (db : DB) (i : Int) (c : Bool) (ops : List Op) :
    createdIds db (Op.update i c :: ops) =
      createdIds (applyOp db (Op.update i c)) ops := rfl

theorem createdIds_cons_delete (db : DB) (i : Int) (ops : List Op) :
    createdIds db (Op.delete i :: ops) =
      createdIds (applyOp db (Op.delete i)) ops := rfl

theorem createdIds_lower (ops : List Op) :
    ∀ db : DB, db.WF → ∀ x ∈ createdIds db ops, db.autoInc ≤ x := by
  induction ops with
  | nil =>
    intro db _ x hx
    simp [createdIds] at hx
  | cons op ops ih =>
    intro db hWF x hx
    have step : x ∈ createdIds (applyOp db op) ops → db.autoInc ≤ x := fun h2 =>
      le_trans (applyOp_autoInc_le db op)
        (ih (applyOp db op) (WF_applyOp db op hWF) x h2)
    cases op with
    | create d =>
      rw [createdIds_cons_create, CreateItem_db_eq db d hWF] at hx
      rcases List.mem_append.mp hx with h1 | h2
      · simp at h1
        exact h1 ▸ le_refl _
      · exact step h2
    | update i c =>
      rw [createdIds_cons_update] at hx
      exact step hx
    | delete i =>
      rw [createdIds_cons_delete] at hx
      exact step hx

theorem createdIds_sorted (ops : List Op) :
    ∀ db : DB, db.WF → (createdIds db ops).Pairwise (· < ·) := by
  induction ops with
  | nil =>
    intro db _
    simp [createdIds]
  | cons op ops ih =>
    intro db hWF
    cases op with
    | create d =>
      rw [createdIds_cons_create, CreateItem_db_eq db d hWF]
      simp only [List.singleton_append]
      rw [List.pairwise_cons]
      constructor
      · intro y hy
        have h2 := createdIds_lower ops (applyOp db (Op.create d))
          (WF_applyOp db (Op.create d) hWF) y hy
        have h3 : (applyOp db (Op.create d)).autoInc = db.autoInc + 1 := rfl
        rw [h3] at h2
        show TodoItemModel.ID { ID := db.autoInc, Description := d, Completed := false } < y
        show db.autoInc < y
        omega
      · exact ih _ (WF_applyOp db _ hWF)
    | update i c =>
      rw [createdIds_cons_update]
      exact ih _ (WF_applyOp db _ hWF)
    | delete i =>
      rw [createdIds_cons_delete]
      exact ih _ (WF_applyOp db _ hWF)

theorem CreateItem_db_ok_WF (db : DB) (d : String) (db2 : DB) (item : TodoItem)
    (hWF : db.WF)
    (heq : TheCore.CreateItem dbAccessor db d = CoreResult.ok (db2, item)) :
    db2.WF := by
  rw [CreateItem_db_shape db d] at heq
  have h1 : gormCreate db { ID := 0, Description := d, Completed := false } = db2 :=
    congrArg (fun x => x.1) (CoreResult.ok.inj heq)
  rw [← h1]
  exact WF_after_create db d hWF

theorem UpdateItem_db_ok_WF (db : DB) (i : Int) (c : Bool) (hWF : db.WF)
    (db2 : DB) (t : TodoItem) (e : Option (CoreError StorageError))
    (heq : TheCore.UpdateItem dbAccessor db i c = CoreResult.ok (db2, t, e)) :
    db2.WF := by
  by_cases hex : ∃ r ∈ db.rows, r.ID = i
  · obtain ⟨r, hr, rfl⟩ := hex
    rw [UpdateItem_db_found db c r hWF.1 hr] at heq
    have h1 : ({ db with
        rows := db.rows.map
          (fun s => if s.ID == r.ID then { r with Completed := c } else s) } : DB) = db2 :=
      congrArg (fun x => x.1) (CoreResult.ok.inj heq)
    rw [← h1]
    exact WF_after_save db r.ID { r with Completed := c } rfl (hWF.2.1 r hr) hWF
  · push_neg at hex
    rw [UpdateItem_db_notFound db i c hex] at heq
    have h1 : db = db2 := congrArg (fun x => x.1) (CoreResult.ok.inj heq)
    rw [← h1]
    exact hWF

theorem DeleteItem_db_fst_WF (db : DB) (j : Int) (hWF : db.WF) :
    ((TheCore.DeleteItem dbAccessor db j).1).WF := by
  by_cases hex : ∃ r ∈ db.rows, r.ID = j
  · obtain ⟨r, hr, rfl⟩ := hex
    rw [DeleteItem_db_found db r hWF.1 hr]
    exact WF_after_filter db _ hWF
  · push_neg at hex
    rw [DeleteItem_db_notFound db j hex]
    exact hWF

theorem filter_incomplete_desc_nil (rows : List TodoItemModel) (d : String)
    (h : ∀ m ∈ rows, m.Description = d → m.Completed = true) :
    ((rows.map TodoItemModel.toItem).filter (fun t => t.Completed == false)).filter
      (fun t => t.Description == d) = [] := by
  rw [List.filter_eq_nil_iff]
  intro t ht
  have h1 := List.mem_filter.mp ht
  rcases List.mem_map.mp h1.1 with ⟨m, hm, rfl⟩
  intro hdesc
  have hd : m.Description = d := by simpa [TodoItemModel.toItem] using hdesc
  have hc := h m hm hd
  have hcomp := h1.2
  simp [TodoItemModel.toItem, hc] at hcomp

/-! ## Claims -/

/-- C1: on a store satisfying the one-record-per-id invariant and containing
a record with id `i`, `UpdateItem i c` returns no error and returns the item
with id `i`, the stored record's description, and completed flag `c`; after
the call the stored record with id `i` has completed equal to `c`. -/
theorem C1_updateItem_success (db : DB) (i : Int) (c : Bool) (r : TodoItemModel)
    (hu : db.UniqueIds) (hr : r ∈ db.rows) (hid : r.ID = i) :
    ∃ db2 : DB,
      TheCore.UpdateItem dbAccessor db i c =
        CoreResult.ok (db2, { ID := i, Description := r.Description, Completed := c }, none) ∧
      (∃ s ∈ db2.rows, s.ID = i ∧ s.Completed = c) ∧
      (∀ s ∈ db2.rows, s.ID = i → s.Completed = c) := by
  subst hid
  refine ⟨_, UpdateItem_db_found db c r hu hr, ?_, ?_⟩
  · refine ⟨{ r with Completed := c }, ?_, rfl, rfl⟩
    have h1 := List.mem_map_of_mem
      (fun s => if s.ID == r.ID then { r with Completed := c } else s) hr
    simpa using h1
  · intro s hs hsid
    rcases List.mem_map.mp hs with ⟨x, hx, rfl⟩
    by_cases hc : x.ID = r.ID
    · rw [if_pos (by simp [hc])]
    · rw [if_neg (by simp [hc])] at hsid
      exact absurd hsid hc

/-- C1 witness: a one-row store with id 1, updated to completed. -/
theorem C1_witness :
    DB.UniqueIds ⟨[⟨1, "a", false⟩], 2⟩ ∧
    (⟨1, "a", false⟩ : TodoItemModel) ∈ (⟨[⟨1, "a", false⟩], 2⟩ : DB).rows ∧
    ∃ db2 : DB,
      TheCore.UpdateItem dbAccessor ⟨[⟨1, "a", false⟩], 2⟩ 1 true =
        CoreResult.ok (db2, { ID := 1, Description := "a", Completed := true }, none) ∧
      (∃ s ∈ db2.rows, s.ID = 1 ∧ s.Completed = true) ∧
      (∀ s ∈ db2.rows, s.ID = 1 → s.Completed = true) :=
  ⟨by decide, by decide,
    C1_updateItem_success ⟨[⟨1, "a", false⟩], 2⟩ 1 true ⟨1, "a", false⟩
      (by decide) (by decide) rfl⟩

/-- C2: when no stored record has id `i`, `UpdateItem i c` returns the
domain error `TodoItemNotFoundError{i}` together with the zero item, and
the store is returned unchanged: nothing is created, mutated, or removed. -/
theorem C2_updateItem_unknown_id (db : DB) (i : Int) (c : Bool)
    (h : ∀ m ∈ db.rows, m.ID ≠ i) :
    TheCore.UpdateItem dbAccessor db i c =
      CoreResult.ok (db, TheCore.emptyTodoItem, some (CoreError.todoItemNotFound i)) :=
  UpdateItem_db_notFound db i c h

/-- C2 witness: updating id 5 in a store that only holds id 1. -/
theorem C2_witness :
    (∀ m ∈ (⟨[⟨1, "a", false⟩], 2⟩ : DB).rows, m.ID ≠ 5) ∧
    TheCore.UpdateItem dbAccessor ⟨[⟨1, "a", false⟩], 2⟩ 5 true =
      CoreResult.ok (⟨[⟨1, "a", false⟩], 2⟩, TheCore.emptyTodoItem,
        some (CoreError.todoItemNotFound 5)) :=
  ⟨by decide, C2_updateItem_unknown_id ⟨[⟨1, "a", false⟩], 2⟩ 5 true (by decide)⟩

/-- C9: under the one-record-per-id invariant, the accessor's read with
predicate "id equals i" returns at most one item, so `UpdateItem` never
reaches its fatal multiple-match branch. -/
theorem C9_updateItem_no_fatal (db : DB) (i : Int) (c : Bool) (hu : db.UniqueIds) :
    (DatabaseAccessor.Read db (fun t => t.ID == i)).length ≤ 1 ∧
    TheCore.UpdateItem dbAccessor db i c ≠ CoreResult.fatal := by
  by_cases hex : ∃ r ∈ db.rows, r.ID = i
  · obtain ⟨r, hr, rfl⟩ := hex
    constructor
    · rw [Read_id_single db hu r hr]
      exact le_refl 1
    · rw [UpdateItem_db_found db c r hu hr]
      intro hcontra
      exact CoreResult.noConfusion hcontra
  · push_neg at hex
    constructor
    · rw [Read_id_nil db i hex]
      simp
    · rw [UpdateItem_db_notFound db i c hex]
      intro hcontra
      exact CoreResult.noConfusion hcontra

/-- C9 witness: a two-row well-formed store, reading and updating id 2. -/
theorem C9_witness :
    DB.UniqueIds ⟨[⟨1, "a", false⟩, ⟨2, "b", true⟩], 3⟩ ∧
    ((DatabaseAccessor.Read ⟨[⟨1, "a", false⟩, ⟨2, "b", true⟩], 3⟩
        (fun t => t.ID == 2)).length ≤ 1 ∧
     TheCore.UpdateItem dbAccessor ⟨[⟨1, "a", false⟩, ⟨2, "b", true⟩], 3⟩ 2 false ≠
       CoreResult.fatal) :=
  ⟨by decide, C9_updateItem_no_fatal ⟨[⟨1, "a", false⟩, ⟨2, "b", true⟩], 3⟩ 2 false (by decide)⟩

/-- C10: whenever `UpdateItem` returns a non-nil error — the not-found case
or an accessor failure during `Update`, over any storage accessor — the item
returned alongside the error is Go's zero-valued `TodoItem`. -/
theorem C10_updateItem_error_zero_item {σ ε : Type} (A : StorageAccessor σ ε)
    (s : σ) (i : Int) (c : Bool) (s2 : σ) (t : TodoItem) (e : CoreError ε)
    (h : TheCore.UpdateItem A s i c = CoreResult.ok (s2, t, some e)) :
    t = TheCore.emptyTodoItem := by
  unfold TheCore.UpdateItem at h
  split at h
  · exact (congrArg (fun x => x.2.1) (CoreResult.ok.inj h)).symm
  · split at h
    · next p s2a ea heq =>
      exact (congrArg (fun x => x.2.1) (CoreResult.ok.inj h)).symm
    · next p s2a heq =>
      exact absurd (congrArg (fun x => x.2.2) (CoreResult.ok.inj h)) (by simp)
  · exact absurd h (by simp)

/-- C3: on a well-formed store, `CreateItem d` returns an item with
completed `false` and the fresh, non-negative id assigned by the accessor:
the id equals the auto-increment counter, is absent from the current rows,
distinct from every id returned by earlier creates along any trace of
operations, and it is both returned by the accessor's `Create` and written
back into the caller's item. -/
theorem C3_createItem_spec (db : DB) (d : String) (h : db.WF) :
    TheCore.CreateItem dbAccessor db d =
      CoreResult.ok
        ({ rows := db.rows ++ [{ ID := db.autoInc, Description := d, Completed := false }],
           autoInc := db.autoInc + 1 },
         { ID := db.autoInc, Description := d, Completed := false }) ∧
    0 ≤ db.autoInc ∧
    db.autoInc ∉ db.rows.map TodoItemModel.ID ∧
    (∀ t : TodoItem,
       (DatabaseAccessor.Create db t).2.2.1 = ((DatabaseAccessor.Create db t).2.1).ID) ∧
    ∀ ops : List Op, (createdIds db ops).Pairwise (· ≠ ·) := by
  refine ⟨CreateItem_db_eq db d h, le_of_lt h.2.2, ?_, fun t => rfl, ?_⟩
  · intro hmem
    rcases List.mem_map.mp hmem with ⟨r, hr, hEq⟩
    exact absurd hEq (ne_of_lt (h.2.1 r hr))
  · intro ops
    exact (createdIds_sorted ops db h).imp (fun hlt => ne_of_lt hlt)

/-- C3 witness: creating in the well-formed empty store. -/
theorem C3_witness :
    DB.WF ⟨[], 1⟩ ∧
    (TheCore.CreateItem dbAccessor ⟨[], 1⟩ "x" =
      CoreResult.ok (⟨[⟨1, "x", false⟩], 2⟩, { ID := 1, Description := "x", Completed := false }) ∧
    0 ≤ (⟨[], 1⟩ : DB).autoInc ∧
    (⟨[], 1⟩ : DB).autoInc ∉ ((⟨[], 1⟩ : DB).rows.map TodoItemModel.ID) ∧
    (∀ t : TodoItem,
       (DatabaseAccessor.Create ⟨[], 1⟩ t).2.2.1 =
         ((DatabaseAccessor.Create ⟨[], 1⟩ t).2.1).ID) ∧
    ∀ ops : List Op, (createdIds ⟨[], 1⟩ ops).Pairwise (· ≠ ·)) :=
  ⟨by decide, C3_createItem_spec ⟨[], 1⟩ "x" (by decide)⟩

/-- C4: the accessor's `Read p` returns exactly the stored records, decoded,
for which `p` holds; with no matches the result is the empty list rather
than an error, so `GetItems c` returns the empty list when no stored item
has completed equal to `c`. -/
theorem C4_read_spec (db : DB) (p : TodoItem → Bool) (c : Bool) :
    (∀ t : TodoItem, t ∈ DatabaseAccessor.Read db p ↔
       ∃ m ∈ db.rows, TodoItemModel.toItem m = t ∧ p t = true) ∧
    ((∀ m ∈ db.rows, m.Completed ≠ c) → TheCore.GetItems dbAccessor db c = []) := by
  constructor
  · intro t
    unfold DatabaseAccessor.Read
    rw [List.mem_filter]
    constructor
    · rintro ⟨hmem, hp⟩
      rcases List.mem_map.mp hmem with ⟨m, hm, rfl⟩
      exact ⟨m, hm, rfl, hp⟩
    · rintro ⟨m, hm, rfl, hp⟩
      exact ⟨List.mem_map_of_mem _ hm, hp⟩
  · intro hnone
    show DatabaseAccessor.Read db (fun t => t.Completed == c) = []
    unfold DatabaseAccessor.Read
    rw [List.filter_eq_nil_iff]
    intro t ht
    rcases List.mem_map.mp ht with ⟨m, hm, rfl⟩
    simpa [TodoItemModel.toItem] using hnone m hm

/-- C4 witness: a two-row store read with predicate "id equals 1" and the
empty `GetItems true` case on a store with no completed item. -/
theorem C4_witness :
    (∀ t : TodoItem,
       t ∈ DatabaseAccessor.Read ⟨[⟨1, "a", false⟩, ⟨2, "b", false⟩], 3⟩ (fun t => t.ID == 1) ↔
       ∃ m ∈ (⟨[⟨1, "a", false⟩, ⟨2, "b", false⟩], 3⟩ : DB).rows,
         TodoItemModel.toItem m = t ∧ (t.ID == 1) = true) ∧
    ((∀ m ∈ (⟨[⟨1, "a", false⟩, ⟨2, "b", false⟩], 3⟩ : DB).rows, m.Completed ≠ true) →
       TheCore.GetItems dbAccessor ⟨[⟨1, "a", false⟩, ⟨2, "b", false⟩], 3⟩ true = []) :=
  C4_read_spec ⟨[⟨1, "a", false⟩, ⟨2, "b", false⟩], 3⟩ (fun t => t.ID == 1) true

/-- C5: on a store satisfying the one-record-per-id invariant, `DeleteItem i`
returns the not-found storage error exactly when no record has id `i` and
leaves the store unchanged then; when a record with id `i` exists it is
removed, every other record is kept, no error is returned, and a subsequent
`UpdateItem i true` fails with the not-found domain error. -/
theorem C5_deleteItem_spec (db : DB) (i : Int) (hu : db.UniqueIds) :
    ((∀ m ∈ db.rows, m.ID ≠ i) →
       TheCore.DeleteItem dbAccessor db i = (db, some StorageError.recordNotFound)) ∧
    (∀ r ∈ db.rows, r.ID = i →
       TheCore.DeleteItem dbAccessor db i =
         ({ db with rows := db.rows.filter (fun x => !(x.ID == i)) }, none) ∧
       r ∉ db.rows.filter (fun x => !(x.ID == i)) ∧
       (∀ s ∈ db.rows, s.ID ≠ i → s ∈ db.rows.filter (fun x => !(x.ID == i))) ∧
       TheCore.UpdateItem dbAccessor
           { db with rows := db.rows.filter (fun x => !(x.ID == i)) } i true =
         CoreResult.ok ({ db with rows := db.rows.filter (fun x => !(x.ID == i)) },
           TheCore.emptyTodoItem, some (CoreError.todoItemNotFound i))) := by
  constructor
  · exact DeleteItem_db_notFound db i
  · intro r hr hid
    subst hid
    refine ⟨DeleteItem_db_found db r hu hr, ?_, ?_, ?_⟩
    · intro hmem
      have h2 := (List.mem_filter.mp hmem).2
      simp at h2
    · intro s hs hsne
      exact List.mem_filter.mpr ⟨hs, by simp [hsne]⟩
    · apply UpdateItem_db_notFound
      intro m hm
      have h2 := (List.mem_filter.mp hm).2
      simpa using h2

/-- C5 witness: deleting id 1 from a two-row store. -/
theorem C5_witness :
    DB.UniqueIds ⟨[⟨1, "a", false⟩, ⟨2, "b", true⟩], 3⟩ ∧
    (((∀ m ∈ (⟨[⟨1, "a", false⟩, ⟨2, "b", true⟩], 3⟩ : DB).rows, m.ID ≠ 1) →
       TheCore.DeleteItem dbAccessor ⟨[⟨1, "a", false⟩, ⟨2, "b", true⟩], 3⟩ 1 =
         (⟨[⟨1, "a", false⟩, ⟨2, "b", true⟩], 3⟩, some StorageError.recordNotFound)) ∧
    (∀ r ∈ (⟨[⟨1, "a", false⟩, ⟨2, "b", true⟩], 3⟩ : DB).rows, r.ID = 1 →
       TheCore.DeleteItem dbAccessor ⟨[⟨1, "a", false⟩, ⟨2, "b", true⟩], 3⟩ 1 =
         ({ (⟨[⟨1, "a", false⟩, ⟨2, "b", true⟩], 3⟩ : DB) with
             rows := (⟨[⟨1, "a", false⟩, ⟨2, "b", true⟩], 3⟩ : DB).rows.filter
               (fun x => !(x.ID == 1)) }, none) ∧
       r ∉ (⟨[⟨1, "a", false⟩, ⟨2, "b", true⟩], 3⟩ : DB).rows.filter (fun x => !(x.ID == 1)) ∧
       (∀ s ∈ (⟨[⟨1, "a", false⟩, ⟨2, "b", true⟩], 3⟩ : DB).rows, s.ID ≠ 1 →
          s ∈ (⟨[⟨1, "a", false⟩, ⟨2, "b", true⟩], 3⟩ : DB).rows.filter
            (fun x => !(x.ID == 1))) ∧
       TheCore.UpdateItem dbAccessor
           { (⟨[⟨1, "a", false⟩, ⟨2, "b", true⟩], 3⟩ : DB) with
               rows := (⟨[⟨1, "a", false⟩, ⟨2, "b", true⟩], 3⟩ : DB).rows.filter
                 (fun x => !(x.ID == 1)) } 1 true =
         CoreResult.ok
           ({ (⟨[⟨1, "a", false⟩, ⟨2, "b", true⟩], 3⟩ : DB) with
               rows := (⟨[⟨1, "a", false⟩, ⟨2, "b", true⟩], 3⟩ : DB).rows.filter
                 (fun x => !(x.ID == 1)) },
            TheCore.emptyTodoItem, some (CoreError.todoItemNotFound 1)))) :=
  ⟨by decide, C5_deleteItem_spec ⟨[⟨1, "a", false⟩, ⟨2, "b", true⟩], 3⟩ 1 (by decide)⟩

/-- C6: starting from a store in which no incomplete item has description
"buy milk", creating an item with that description and then listing the
incomplete items yields exactly one item described "buy milk", with
completed flag `false`. -/
theorem C6_create_then_list (db : DB)
    (h : ∀ m ∈ db.rows, m.Description = "buy milk" → m.Completed = true) :
    ∃ db2 : DB, ∃ item : TodoItem,
      TheCore.CreateItem dbAccessor db "buy milk" = CoreResult.ok (db2, item) ∧
      (TheCore.GetItems dbAccessor db2 false).filter
          (fun t => t.Description == "buy milk") =
        [{ ID := db.autoInc, Description := "buy milk", Completed := false }] := by
  refine ⟨_, _, CreateItem_db_shape db "buy milk", ?_⟩
  have hG : TheCore.GetItems dbAccessor
      (gormCreate db { ID := 0, Description := "buy milk", Completed := false }) false =
      ((db.rows ++ [({ ID := db.autoInc, Description := "buy milk", Completed := false } :
          TodoItemModel)]).map
        TodoItemModel.toItem).filter (fun t => t.Completed == false) := rfl
  rw [hG, List.map_append, List.filter_append, List.filter_append]
  rw [filter_incomplete_desc_nil db.rows "buy milk" h]
  simp [TodoItemModel.toItem]

/-- C6 witness: creating "buy milk" in a store whose only "buy milk" row is
already completed. -/
theorem C6_witness :
    (∀ m ∈ (⟨[⟨1, "buy milk", true⟩], 2⟩ : DB).rows,
       m.Description = "buy milk" → m.Completed = true) ∧
    ∃ db2 : DB, ∃ item : TodoItem,
      TheCore.CreateItem dbAccessor ⟨[⟨1, "buy milk", true⟩], 2⟩ "buy milk" =
        CoreResult.ok (db2, item) ∧
      (TheCore.GetItems dbAccessor db2 false).filter
          (fun t => t.Description == "buy milk") =
        [{ ID := 2, Description := "buy milk", Completed := false }] :=
  ⟨by decide, C6_create_then_list ⟨[⟨1, "buy milk", true⟩], 2⟩ (by decide)⟩

/-- C7: frame property of `UpdateItem` on a store satisfying the
one-record-per-id invariant: whenever the call returns, the post-store is
the row list with only the completed flag of the id-`i` row possibly
changed — the id and description columns are unchanged positionally, and
every row whose id differs from `i` is entirely unchanged. -/
theorem C7_updateItem_frame (db : DB) (i : Int) (c : Bool) (hu : db.UniqueIds)
    (db2 : DB) (t : TodoItem) (e : Option (CoreError StorageError))
    (h : TheCore.UpdateItem dbAccessor db i c = CoreResult.ok (db2, t, e)) :
    db2.rows = db.rows.map (fun s => if s.ID == i then { s with Completed := c } else s) ∧
    db2.rows.map TodoItemModel.ID = db.rows.map TodoItemModel.ID ∧
    db2.rows.map TodoItemModel.Description = db.rows.map TodoItemModel.Description ∧
    (∀ s ∈ db.rows, s.ID ≠ i → s ∈ db2.rows) := by
  have hmain : db2.rows =
      db.rows.map (fun s => if s.ID == i then { s with Completed := c } else s) := by
    by_cases hex : ∃ r ∈ db.rows, r.ID = i
    · obtain ⟨r, hr, rfl⟩ := hex
      rw [UpdateItem_db_found db c r hu hr] at h
      have h1 : ({ db with
          rows := db.rows.map
            (fun s => if s.ID == r.ID then { r with Completed := c } else s) } : DB) = db2 :=
        congrArg (fun x => x.1) (CoreResult.ok.inj h)
      rw [← h1]
      show db.rows.map (fun s => if s.ID == r.ID then { r with Completed := c } else s) = _
      refine List.map_congr_left ?_
      intro x hx
      by_cases hc2 : x.ID = r.ID
      · have hxr : x = r := List.inj_on_of_nodup_map hu hx hr hc2
        rw [if_pos (by simp [hc2]), if_pos (by simp [hc2]), hxr]
      · rw [if_neg (by simp [hc2]), if_neg (by simp [hc2])]
    · push_neg at hex
      rw [UpdateItem_db_notFound db i c hex] at h
      have h1 : db = db2 := congrArg (fun x => x.1) (CoreResult.ok.inj h)
      rw [← h1]
      have h2 : db.rows.map (fun s => if s.ID == i then { s with Completed := c } else s) =
          db.rows.map id :=
        List.map_congr_left (fun x hx => by rw [if_neg (by simp [hex x hx])]; rfl)
      rw [h2, List.map_id]
  refine ⟨hmain, ?_, ?_, ?_⟩
  · rw [hmain, List.map_map]
    refine List.map_congr_left ?_
    intro x _
    simp only [Function.comp_apply]
    by_cases hc2 : x.ID = i
    · rw [if_pos (by simp [hc2])]
    · rw [if_neg (by simp [hc2])]
  · rw [hmain, List.map_map]
    refine List.map_congr_left ?_
    intro x _
    simp only [Function.comp_apply]
    by_cases hc2 : x.ID = i
    · rw [if_pos (by simp [hc2])]
    · rw [if_neg (by simp [hc2])]
  · intro s hs hsne
    rw [hmain]
    refine List.mem_map.mpr ⟨s, hs, ?_⟩
    show (if (s.ID == i) = true
        then ({ ID := s.ID, Description := s.Description, Completed := c } : TodoItemModel)
        else s) = s
    rw [if_neg (by simp [hsne])]

/-- C7 witness: updating id 1 to completed in a two-row store leaves ids,
descriptions, and the id-2 row unchanged. -/
theorem C7_witness :
    DB.UniqueIds ⟨[⟨1, "a", false⟩, ⟨2, "b", true⟩], 3⟩ ∧
    TheCore.UpdateItem dbAccessor ⟨[⟨1, "a", false⟩, ⟨2, "b", true⟩], 3⟩ 1 true =
      CoreResult.ok (⟨[⟨1, "a", true⟩, ⟨2, "b", true⟩], 3⟩,
        { ID := 1, Description := "a", Completed := true }, none) ∧
    ((⟨[⟨1, "a", true⟩, ⟨2, "b", true⟩], 3⟩ : DB).rows =
       (⟨[⟨1, "a", false⟩, ⟨2, "b", true⟩], 3⟩ : DB).rows.map
         (fun s => if s.ID == 1 then { s with Completed := true } else s) ∧
     (⟨[⟨1, "a", true⟩, ⟨2, "b", true⟩], 3⟩ : DB).rows.map TodoItemModel.ID =
       (⟨[⟨1, "a", false⟩, ⟨2, "b", true⟩], 3⟩ : DB).rows.map TodoItemModel.ID ∧
     (⟨[⟨1, "a", true⟩, ⟨2, "b", true⟩], 3⟩ : DB).rows.map TodoItemModel.Description =
       (⟨[⟨1, "a", false⟩, ⟨2, "b", true⟩], 3⟩ : DB).rows.map TodoItemModel.Description ∧
     (∀ s ∈ (⟨[⟨1, "a", false⟩, ⟨2, "b", true⟩], 3⟩ : DB).rows, s.ID ≠ 1 →
        s ∈ (⟨[⟨1, "a", true⟩, ⟨2, "b", true⟩], 3⟩ : DB).rows)) :=
  ⟨by decide, by decide,
    C7_updateItem_frame ⟨[⟨1, "a", false⟩, ⟨2, "b", true⟩], 3⟩ 1 true (by decide)
      ⟨[⟨1, "a", true⟩, ⟨2, "b", true⟩], 3⟩
      { ID := 1, Description := "a", Completed := true } none (by decide)⟩

/-- C8: on a well-formed store (ids pairwise distinct and below the
auto-increment counter, which is how the storage layer guarantees fresh
ids), every operation's post-store is again well-formed, and in particular
each id still identifies at most one stored record. `GetItems` is read-only
in the embedding — its accessor call returns no store — so it preserves
every store invariant trivially. -/
theorem C8_invariant_preserved (db : DB) (h : db.WF) (d : String) (i j : Int) (c : Bool) :
    (∀ db2 item, TheCore.CreateItem dbAccessor db d = CoreResult.ok (db2, item) →
       db2.WF ∧ db2.UniqueIds) ∧
    (∀ db2 t e, TheCore.UpdateItem dbAccessor db i c = CoreResult.ok (db2, t, e) →
       db2.WF ∧ db2.UniqueIds) ∧
    ((TheCore.DeleteItem dbAccessor db j).1).WF ∧
    ((TheCore.DeleteItem dbAccessor db j).1).UniqueIds := by
  refine ⟨?_, ?_, ?_, ?_⟩
  · intro db2 item heq
    have h2 := CreateItem_db_ok_WF db d db2 item h heq
    exact ⟨h2, h2.1⟩
  · intro db2 t e heq
    have h2 := UpdateItem_db_ok_WF db i c h db2 t e heq
    exact ⟨h2, h2.1⟩
  · exact DeleteItem_db_fst_WF db j h
  · exact (DeleteItem_db_fst_WF db j h).1

/-- C8 witness: one create, update, and delete on a one-row well-formed
store. -/
theorem C8_witness :
    DB.WF ⟨[⟨1, "a", false⟩], 2⟩ ∧
    ((∀ db2 item,
        TheCore.CreateItem dbAccessor ⟨[⟨1, "a", false⟩], 2⟩ "x" =
          CoreResult.ok (db2, item) → db2.WF ∧ db2.UniqueIds) ∧
     (∀ db2 t e,
        TheCore.UpdateItem dbAccessor ⟨[⟨1, "a", false⟩], 2⟩ 1 true =
          CoreResult.ok (db2, t, e) → db2.WF ∧ db2.UniqueIds) ∧
     ((TheCore.DeleteItem dbAccessor ⟨[⟨1, "a", false⟩], 2⟩ 1).1).WF ∧
     ((TheCore.DeleteItem dbAccessor ⟨[⟨1, "a", false⟩], 2⟩ 1).1).UniqueIds) :=
  ⟨by decide, C8_invariant_preserved ⟨[⟨1, "a", false⟩], 2⟩ (by decide) "x" 1 1 true⟩

/-- C10 witness: the not-found error on an empty store yields the zero item. -/
theorem C10_witness :
    TheCore.UpdateItem dbAccessor ⟨[], 1⟩ 1 true =
      CoreResult.ok (⟨[], 1⟩, TheCore.emptyTodoItem,
        some (CoreError.todoItemNotFound 1)) ∧
    TheCore.emptyTodoItem = TheCore.emptyTodoItem :=
  ⟨by decide,
    C10_updateItem_error_zero_item dbAccessor ⟨[], 1⟩ 1 true ⟨[], 1⟩
      TheCore.emptyTodoItem (CoreError.todoItemNotFound 1) (by decide)⟩

end Todolist
